import Mathlib

/-!
Verification development for the camera-control subsystem of the stl-viewer
repository.  The TypeScript sources under `src/src/camera/` (and the unnamed
`SphericalCamera` module) are shallowly embedded below over exact real
arithmetic: JavaScript numbers become `ℝ`, the gl-matrix vector/quaternion
helpers become functions on explicit three/four component structures, the
wall clock (`performance.now()`) becomes an explicit `now : ℝ` argument, and
a `throw` becomes the `Except.error` branch of an `Except String` result.
`console.warn` in `rotateWithAnimation` is modelled as a returned `Bool` flag.
-/

open Real

noncomputable section

/-- A 3-component vector, as used by gl-matrix `vec3` (components are JS
numbers, modelled as exact reals). -/
@[ext]
structure Vec3 where
  x : ℝ
  y : ℝ
  z : ℝ

/-- A quaternion in gl-matrix layout `(x, y, z, w)` with `w` the scalar part. -/
@[ext]
structure Quat where
  x : ℝ
  y : ℝ
  z : ℝ
  w : ℝ

namespace vec3

/-- gl-matrix `vec3.add`. -/
def add (a b : Vec3) : Vec3 := ⟨a.x + b.x, a.y + b.y, a.z + b.z⟩

/-- gl-matrix `vec3.subtract`. -/
def subtract (a b : Vec3) : Vec3 := ⟨a.x - b.x, a.y - b.y, a.z - b.z⟩

/-- gl-matrix `vec3.scale`. -/
def scale (a : Vec3) (s : ℝ) : Vec3 := ⟨a.x * s, a.y * s, a.z * s⟩

/-- gl-matrix `vec3.scaleAndAdd`: `a + b * s`. -/
def scaleAndAdd (a b : Vec3) (s : ℝ) : Vec3 :=
  ⟨a.x + b.x * s, a.y + b.y * s, a.z + b.z * s⟩

/-- gl-matrix `vec3.dot`. -/
def dot (a b : Vec3) : ℝ := a.x * b.x + a.y * b.y + a.z * b.z

/-- gl-matrix `vec3.cross`. -/
def cross (a b : Vec3) : Vec3 :=
  ⟨a.y * b.z - a.z * b.y, a.z * b.x - a.x * b.z, a.x * b.y - a.y * b.x⟩

/-- Squared length `x*x + y*y + z*z`, the quantity gl-matrix calls `len`
inside `vec3.normalize` before taking the square root. -/
def normSq (a : Vec3) : ℝ := a.x * a.x + a.y * a.y + a.z * a.z

/-- Euclidean length of a vector. -/
def length (a : Vec3) : ℝ := Real.sqrt (normSq a)

/-- gl-matrix `vec3.normalize`: computes the squared length, and multiplies
the vector by its inverse square root when it is positive (a zero vector is
scaled by `0`, i.e. returned unchanged as the zero vector). -/
def normalize (a : Vec3) : Vec3 :=
  let len := normSq a
  let len2 := if 0 < len then 1 / Real.sqrt len else len
  scale a len2

end vec3

namespace quat

/-- gl-matrix `quat.multiply` (Hamilton product in `(x, y, z, w)` layout). -/
def multiply (a b : Quat) : Quat :=
  ⟨a.x * b.w + a.w * b.x + a.y * b.z - a.z * b.y,
   a.y * b.w + a.w * b.y + a.z * b.x - a.x * b.z,
   a.z * b.w + a.w * b.z + a.x * b.y - a.y * b.x,
   a.w * b.w - a.x * b.x - a.y * b.y - a.z * b.z⟩

/-- gl-matrix `quat.invert`: the conjugate divided by the squared norm, with
the all-zero quaternion mapped to zero (`invDot = dot ? 1/dot : 0`). -/
def invert (a : Quat) : Quat :=
  let d := a.x * a.x + a.y * a.y + a.z * a.z + a.w * a.w
  let invDot := if d ≠ 0 then 1 / d else 0
  ⟨-a.x * invDot, -a.y * invDot, -a.z * invDot, a.w * invDot⟩

/-- gl-matrix `quat.setAxisAngle`: `(sin(rad/2)·axis, cos(rad/2))`. -/
def setAxisAngle (axis : Vec3) (rad : ℝ) : Quat :=
  ⟨Real.sin (rad * 0.5) * axis.x, Real.sin (rad * 0.5) * axis.y,
   Real.sin (rad * 0.5) * axis.z, Real.cos (rad * 0.5)⟩

/-- Embedding a vector as a pure quaternion `(p, 0)`
(`quat.set(out, p[0], p[1], p[2], 0)` in the sources). -/
def ofVec (p : Vec3) : Quat := ⟨p.x, p.y, p.z, 0⟩

/-- Reading back the vector part of a quaternion
(`vec3.set(out, q[0], q[1], q[2])` in the sources). -/
def vecPart (q : Quat) : Vec3 := ⟨q.x, q.y, q.z⟩

/-- Quaternion conjugate (proof-side helper; gl-matrix `invert` reduces to it
on unit quaternions). -/
def conj (a : Quat) : Quat := ⟨-a.x, -a.y, -a.z, a.w⟩

/-- Squared quaternion norm (the `dot` computed inside gl-matrix
`quat.invert`). -/
def normSq (a : Quat) : ℝ := a.x * a.x + a.y * a.y + a.z * a.z + a.w * a.w

end quat

namespace ArcballCamera

/-- The module-level helper `rotateWithQuat` of `ArcballCamera.ts`:
`t1 := invert q`; `t1 := multiply(pure p, t1)`; `t1 := multiply(q, t1)`;
return the vector part.  It therefore computes `q ⊗ (p,0) ⊗ q⁻¹`. -/
def rotateWithQuat (p : Vec3) (q : Quat) : Vec3 :=
  quat.vecPart (quat.multiply q (quat.multiply (quat.ofVec p) (quat.invert q)))

/-- Payload of the `animating` interaction of `ArcballCamera.ts`. -/
structure AnimationAnimating where
  startTime : ℝ
  duration : ℝ
  angularVelocity : ℝ
  rotationAxis : Vec3
  currentAngle : ℝ
  targetAngle : ℝ

/-- The `Animation` tagged union of `ArcballCamera.ts`
(`animating | rotating | panning`). -/
inductive Animation where
  | animating (a : AnimationAnimating)
  | rotating (lastNormalizedCoordinates currentNormalizedCoordinates rotationAxis : Vec3)
  | panning

/-- Mutable camera state of `ArcballCamera` (fields `#position`, `#target`,
`#up`, `#front`, `#right`, `#animation`; `#fov` is never touched by the
operations modelled here). -/
structure State where
  position : Vec3
  target : Vec3
  up : Vec3
  front : Vec3
  right : Vec3
  animation : Option Animation

/-- The method `ArcballCamera.rotate(axis, theta)`: rotate `position`, `up`, `front`,
`right` individually with the quaternion `setAxisAngle(axis, theta)`. -/
def rotate (c : State) (axis : Vec3) (theta : ℝ) : State :=
  let q := quat.setAxisAngle axis theta
  { c with
    position := rotateWithQuat c.position q
    up := rotateWithQuat c.up q
    front := rotateWithQuat c.front q
    right := rotateWithQuat c.right q }

/-- The method `ArcballCamera.update(dt)`.  The wall clock read `performance.now()` is
the explicit `now` argument.  While `animating`, the animation ends (state
cleared, nothing rotated this tick) when `now ≥ duration + startTime` or
`currentAngle ≥ targetAngle`; otherwise `currentAngle` advances by
`angularVelocity * dt` and the camera rotates by the same delta.  The body
contains no `throw`, so every branch is `Except.ok`. -/
def update (c : State) (now dt : ℝ) : Except String State :=
  match c.animation with
  | none => .ok c
  | some (.animating a) =>
    if now ≥ a.duration + a.startTime ∨ a.currentAngle ≥ a.targetAngle then
      .ok { c with animation := none }
    else
      let deltaAngle := a.angularVelocity * dt
      let a2 := { a with currentAngle := a.currentAngle + deltaAngle }
      .ok { rotate c a.rotationAxis deltaAngle with animation := some (.animating a2) }
  | some (.rotating _ _ _) => .ok c
  | some .panning => .ok c

/-- The method `ArcballCamera.rotateWithAnimation(axis, theta, duration)`.  The returned
`Bool` records whether the `console.warn("already animating, ...")` fired.
Note the source has no early return after the warning: the animation field is
unconditionally replaced. -/
def rotateWithAnimation (c : State) (now : ℝ) (axis : Vec3) (theta duration : ℝ) :
    State × Bool :=
  let warned := match c.animation with
    | some (.animating _) => true
    | _ => false
  ({ c with
     animation := some (.animating
       { startTime := now
         duration := duration
         angularVelocity := theta / duration
         rotationAxis := axis
         currentAngle := 0
         targetAngle := theta }) },
   warned)

/-- Whether the `#animation?.type === "animating"` check of
`ArcballCamera.ts` succeeds. -/
def isAnimating : Option Animation → Bool
  | some (.animating _) => true
  | _ => false

/-- The handler `ArcballCamera.#onBlurAndFocus`: returns early (leaving the interaction
unchanged) when animating, otherwise clears `#animation`. -/
def onBlurAndFocus (a : Option Animation) : Option Animation :=
  if isAnimating a then a else none

/-- Whether the `#animation?.type !== "rotating"` guard of
`ArcballCamera.#calculateNormalizedCoordinates` passes. -/
def isRotating : Option Animation → Bool
  | some (.rotating _ _ _) => true
  | _ => false

/-- The constant `kNegativeZFrontVector = [0, 0, -1]` of `ArcballCamera.ts`. -/
def kNegativeZFrontVector : Vec3 := ⟨0, 0, -1⟩

/-- The method `ArcballCamera.#calculateNormalizedCoordinates(out, ev)`.  Throws (the
`Except.error` branch) whenever the interaction is not `rotating`; otherwise
projects the pointer position onto the blended screen hemisphere, rotates the
result from the canonical `[0,0,-1]`-facing frame into the current camera
frame, and normalizes it.  `width`/`height` are the canvas dimensions and
`front` is the camera `#front` vector; the write into the interaction payload
scratch `rotationAxis` is not modelled (the claim concerns the returned
value and the raised error only). -/
def calculateNormalizedCoordinates (animation : Option Animation) (front : Vec3)
    (width height offsetX offsetY : ℝ) : Except String Vec3 :=
  if ¬isRotating animation then
    .error "programming error: this method is only allowed during rotating"
  else
    let sphereRadius := (min width height - 1) / 2
    let centerX : ℝ := (⌊width / 2 - 0.99 + 0.5⌋ : ℤ)
    let centerY : ℝ := (⌊height / 2 - 0.99 + 0.5⌋ : ℤ)
    let out0 := (offsetX - centerX) / sphereRadius
    let out1 := -(offsetY - centerY) / sphereRadius
    let r2 := out0 * out0 + out1 * out1
    let out2 := if r2 ≤ 0.5 then Real.sqrt (1 - r2) else 0.5 / Real.sqrt r2
    let axis := vec3.cross front kNegativeZFrontVector
    let angle := -Real.arccos (min (vec3.dot front kNegativeZFrontVector) 1.0)
    let q := quat.setAxisAngle axis angle
    .ok (vec3.normalize (rotateWithQuat ⟨out0, out1, out2⟩ q))

end ArcballCamera

namespace TrackballCamera

/-- The module-level helper `rotateWithQuat` of `TrackballCamera.ts`:
`t1 := invert q`; `t2 := multiply(pure p, q)`; `t1 := multiply(t1, t2)`;
return the vector part.  It therefore computes `q⁻¹ ⊗ (p,0) ⊗ q`. -/
def rotateWithQuat (p : Vec3) (q : Quat) : Vec3 :=
  quat.vecPart (quat.multiply (quat.invert q) (quat.multiply (quat.ofVec p) q))

/-- The `Interaction` tagged union of `TrackballCamera.ts`.  Note there is no
`animating` variant in this camera. -/
inductive Interaction where
  | rotating (lastNormalizedCoordinates currentNormalizedCoordinates rotationAxis : Vec3)
      (initialCameraRotation : Quat)
  | panning (lastMouseX lastMouseY : ℝ)
  | rotatingVelocity (speed : ℝ) (axis : Vec3)
  | panningVelocity (direction : Vec3) (speed : ℝ)

/-- Mutable camera state of `TrackballCamera` (fields `#center`, `#position`,
`#up`, `#front`, `#right`; `#fov`, sensitivities and `#interaction` are kept
outside this record). -/
structure State where
  center : Vec3
  position : Vec3
  up : Vec3
  front : Vec3
  right : Vec3

/-- The method `TrackballCamera.rotate(axis, angle)`: rotate all four vectors by the
quaternion and re-normalize `up`, `front`, `right` (but not `position`). -/
def rotate (c : State) (axis : Vec3) (angle : ℝ) : State :=
  let q := quat.setAxisAngle axis angle
  { center := c.center
    position := rotateWithQuat c.position q
    up := vec3.normalize (rotateWithQuat c.up q)
    front := vec3.normalize (rotateWithQuat c.front q)
    right := vec3.normalize (rotateWithQuat c.right q) }

/-- The method `TrackballCamera.#recalculate()`: `front := normalize(center - position)`;
`right := normalize(front × up)`; `up := normalize(right × front)`. -/
def recalculate (c : State) : State :=
  let front := vec3.normalize (vec3.subtract c.center c.position)
  let right := vec3.normalize (vec3.cross front c.up)
  let up := vec3.normalize (vec3.cross right front)
  { c with front := front, right := right, up := up }

/-- The method `TrackballCamera.dolly(dz)`: move `position` along `front` by `dz`; if
`dot(center - position, front) < 5` snap `position` to `center - front·5`;
then recalculate the basis. -/
def dolly (c : State) (dz : ℝ) : State :=
  let position1 := vec3.scaleAndAdd c.position c.front dz
  let staticDollyFront := vec3.subtract c.center position1
  let position2 :=
    if vec3.dot staticDollyFront c.front < 5 then
      vec3.scaleAndAdd c.center c.front (-5)
    else position1
  recalculate { c with position := position2 }

/-- The method `TrackballCamera.update(dt)`: advance a velocity interaction
(`rotate(axis, speed·dt/1000)` or translate `center` and `position` by
`direction·(speed·dt/1000)`); other interactions leave the state unchanged.
The body contains no `throw`, so every branch is `Except.ok`. -/
def update (c : State) (i : Option Interaction) (dt : ℝ) : Except String State :=
  match i with
  | some (.rotatingVelocity speed axis) => .ok (rotate c axis (speed * dt / 1000))
  | some (.panningVelocity direction speed) =>
    let distance := speed * dt / 1000
    .ok { c with
          center := vec3.scaleAndAdd c.center direction distance
          position := vec3.scaleAndAdd c.position direction distance }
  | _ => .ok c

/-- The handler `TrackballCamera.#onBlurAndFocus`: unconditionally clears
`#interaction`. -/
def onBlurAndFocus (_ : Option Interaction) : Option Interaction := none

/-- The method `TrackballCamera.#calculateNormalizedCoordinates(out, offsetX, offsetY)`:
the hemisphere projection with no interaction-state precondition check and no
`throw` anywhere in the body — it returns normally for every interaction
(the `interaction` argument models `this.#interaction`, which the body never
reads). -/
def calculateNormalizedCoordinates (_interaction : Option Interaction)
    (width height offsetX offsetY : ℝ) : Except String Vec3 :=
  let sphereRadius := (min width height - 1) / 2
  let centerX : ℝ := (⌊width / 2 - 0.99 + 0.5⌋ : ℤ)
  let centerY : ℝ := (⌊height / 2 - 0.99 + 0.5⌋ : ℤ)
  let out0 := (offsetX - centerX) / sphereRadius
  let out1 := -(offsetY - centerY) / sphereRadius
  let r2 := out0 * out0 + out1 * out1
  let out2 := if r2 ≤ 0.5 then Real.sqrt (1 - r2) else 0.5 / Real.sqrt r2
  .ok (vec3.normalize ⟨out0, out1, out2⟩)

end TrackballCamera

/-- The JavaScript builtin `Math.atan2(y, x)` on exact reals (ignoring signed
zeros and NaN): the angle of the point `(x, y)` in `(-π, π]`, with
`atan2(0, 0) = 0`. -/
def atan2 (y x : ℝ) : ℝ :=
  if 0 < x then Real.arctan (y / x)
  else if x < 0 then
    (if 0 ≤ y then Real.arctan (y / x) + π else Real.arctan (y / x) - π)
  else
    (if 0 < y then π / 2 else if y < 0 then -(π / 2) else 0)

namespace SphericalCamera

/-- Loop 1 of `wrappedAngleAdd`: `while (res > PI) res -= 2*PI`. -/
def wrapDown (x : ℝ) : ℝ :=
  if h : x > π then wrapDown (x - 2 * π) else x
termination_by (⌈(x - π) / (2 * π)⌉).toNat
decreasing_by
  have hπ : (0 : ℝ) < 2 * π := by positivity
  have hquot : ((x - 2 * π) - π) / (2 * π) = (x - π) / (2 * π) - 1 := by
    field_simp
    ring
  have hpos : 0 < (x - π) / (2 * π) := div_pos (by linarith) hπ
  have hceil : 0 < ⌈(x - π) / (2 * π)⌉ := Int.ceil_pos.mpr hpos
  rw [hquot, Int.ceil_sub_one]
  omega

/-- Loop 2 of `wrappedAngleAdd`: `while (res < -PI) res += 2*PI`. -/
def wrapUp (x : ℝ) : ℝ :=
  if h : x < -π then wrapUp (x + 2 * π) else x
termination_by (⌈(-π - x) / (2 * π)⌉).toNat
decreasing_by
  have hπ : (0 : ℝ) < 2 * π := by positivity
  have hquot : (-π - (x + 2 * π)) / (2 * π) = (-π - x) / (2 * π) - 1 := by
    field_simp
    ring
  have hpos : 0 < (-π - x) / (2 * π) := div_pos (by linarith) hπ
  have hceil : 0 < ⌈(-π - x) / (2 * π)⌉ := Int.ceil_pos.mpr hpos
  rw [hquot, Int.ceil_sub_one]
  omega

/-- The function `wrappedAngleAdd(angle, dangle)` of the `SphericalCamera` module: add the
delta, then run the two wrapping loops in sequence. -/
def wrappedAngleAdd (angle dangle : ℝ) : ℝ :=
  wrapUp (wrapDown (angle + dangle))

/-- The function `cart2sph(out, x, y, z)` of the `SphericalCamera` module:
`theta = atan2(x, z)`, `phi = atan2(y, sqrt(x²+z²))`, `r = sqrt(x²+y²+z²)`. -/
def cart2sph (x y z : ℝ) : Vec3 :=
  ⟨atan2 x z, atan2 y (Real.sqrt (x * x + z * z)),
   Real.sqrt (x * x + y * y + z * z)⟩

/-- The function `sph2cart(out, theta, phi, r)` of the `SphericalCamera` module. -/
def sph2cart (theta phi r : ℝ) : Vec3 :=
  ⟨r * Real.cos phi * Real.sin theta, r * Real.sin phi,
   r * Real.cos phi * Real.cos theta⟩

/-- The method `SphericalCamera.update(_dt)`: an empty body (`// No update?`), embedded
as a contract-level `Except` that always returns normally. -/
def update (_dt : ℝ) : Except String Unit := .ok ()

end SphericalCamera

namespace ArcballCameraSpherical

/-- The function `cart2sph` of `ArcballCameraSpherical.ts` (MATLAB/Octave convention):
`theta = atan2(y, x)`, `phi = atan2(z, sqrt(x²+y²))`, `r = sqrt(x²+y²+z²)`. -/
def cart2sph (x y z : ℝ) : Vec3 :=
  ⟨atan2 y x, atan2 z (Real.sqrt (x * x + y * y)),
   Real.sqrt (x * x + y * y + z * z)⟩

/-- The function `sph2cart` of `ArcballCameraSpherical.ts`. -/
def sph2cart (theta phi r : ℝ) : Vec3 :=
  ⟨r * Real.cos phi * Real.cos theta, r * Real.cos phi * Real.sin theta,
   r * Real.sin phi⟩

/-- The method `ArcballCameraSpherical.update(dt)`:
`throw new Error("Method not implemented.")`. -/
def update (_dt : ℝ) : Except String Unit := .error "Method not implemented."

end ArcballCameraSpherical

/-- Modelled from the spec (claim C7): the active rotation
`p' = q⁻¹ p q` with `p` embedded as the pure quaternion `(p, 0)` — the
transformation the specification says every `rotateWithQuat` helper
computes.  This definition follows the words of the spec and is compared
against the helpers embedded from the source. -/
def specActiveRotation (q : Quat) (p : Vec3) : Vec3 :=
  quat.vecPart (quat.multiply (quat.multiply (quat.invert q) (quat.ofVec p)) q)

/-- Exact orthonormality of a camera basis triple. -/
def OrthonormalTriad (front up right : Vec3) : Prop :=
  vec3.normSq front = 1 ∧ vec3.normSq up = 1 ∧ vec3.normSq right = 1 ∧
    vec3.dot front up = 0 ∧ vec3.dot front right = 0 ∧ vec3.dot up right = 0

/-- The property asserted by claim C1: the basis vectors are unit length and
their pairwise dot products are within `1e-4` of zero. -/
def UnitBasisWithTolerance (front up right : Vec3) : Prop :=
  vec3.length front = 1 ∧ vec3.length up = 1 ∧ vec3.length right = 1 ∧
    |vec3.dot front up| ≤ 1 / 10000 ∧ |vec3.dot front right| ≤ 1 / 10000 ∧
    |vec3.dot up right| ≤ 1 / 10000

/-- A finite sequence of `ArcballCamera.rotate(axis, theta)` calls. -/
def ArcballCamera.rotateList (c : ArcballCamera.State) (rs : List (Vec3 × ℝ)) :
    ArcballCamera.State :=
  rs.foldl (fun s r => ArcballCamera.rotate s r.1 r.2) c

/-- A finite sequence of `TrackballCamera.rotate(axis, angle)` calls. -/
def TrackballCamera.rotateList (c : TrackballCamera.State) (rs : List (Vec3 × ℝ)) :
    TrackballCamera.State :=
  rs.foldl (fun s r => TrackballCamera.rotate s r.1 r.2) c

/-- A finite sequence of `TrackballCamera.dolly(dz)` calls. -/
def TrackballCamera.dollyList (c : TrackballCamera.State) (dzs : List ℝ) :
    TrackballCamera.State :=
  dzs.foldl TrackballCamera.dolly c

/-- The accumulated angle of an active rotation animation (`0` when no
animation is active). -/
def ArcballCamera.currentAngleOf : Option ArcballCamera.Animation → ℝ
  | some (.animating a) => a.currentAngle
  | _ => 0

/-- Concrete camera used to trace the spec example of claim C2
(`position=(0,0,4)`, `target=(0,0,0)`, `up=(0,1,0)`, idle). -/
def animExample0 : ArcballCamera.State :=
  { position := ⟨0, 0, 4⟩, target := ⟨0, 0, 0⟩, up := ⟨0, 1, 0⟩,
    front := ⟨0, 0, -1⟩, right := ⟨1, 0, 0⟩, animation := none }

/-- The C2 example camera right after
`rotateWithAnimation(axis=[0,1,0], angle=π, duration=1000)` at time `0`. -/
def animExample1 : ArcballCamera.State :=
  (ArcballCamera.rotateWithAnimation animExample0 0 ⟨0, 1, 0⟩ π 1000).1

/-- The C2 example camera after the first `update` tick (`now=500`,
`dt=500`): rotated by `(π/1000)·500` with `currentAngle` advanced by the
same delta. -/
def animExample2 : ArcballCamera.State :=
  { ArcballCamera.rotate animExample1 ⟨0, 1, 0⟩ (π / 1000 * 500) with
    animation := some (.animating
      { startTime := 0, duration := 1000, angularVelocity := π / 1000,
        rotationAxis := ⟨0, 1, 0⟩, currentAngle := 0 + π / 1000 * 500,
        targetAngle := π }) }

end

/-! ## Helper lemmas about the quaternion algebra -/

/-- The quantity `vec3.normSq` is the dot product of a vector with itself. -/
theorem vec3_normSq_eq_dot (v : Vec3) : vec3.normSq v = vec3.dot v v := rfl

/-- On a unit quaternion, gl-matrix `quat.invert` is the conjugate. -/
theorem quat_invert_of_unit (q : Quat) (h : quat.normSq q = 1) :
    quat.invert q = quat.conj q := by
  unfold quat.normSq at h
  unfold quat.invert quat.conj
  rw [h]
  norm_num

/-- Conjugating two pure quaternions by `q` on the left (the arcball helper
shape `q ⊗ (p,0) ⊗ q̄`) scales the dot product of the vector parts by the
squared norm of `q`, squared. -/
theorem dot_conj_left (q : Quat) (p p' : Vec3) :
    vec3.dot (quat.vecPart (quat.multiply q (quat.multiply (quat.ofVec p) (quat.conj q))))
      (quat.vecPart (quat.multiply q (quat.multiply (quat.ofVec p') (quat.conj q)))) =
      quat.normSq q ^ 2 * vec3.dot p p' := by
  unfold quat.multiply quat.conj quat.ofVec quat.vecPart quat.normSq vec3.dot
  ring

/-- Conjugating two pure quaternions by `q` on the right (the trackball
helper shape `q̄ ⊗ (p,0) ⊗ q`) scales the dot product of the vector parts by
the squared norm of `q`, squared. -/
theorem dot_conj_right (q : Quat) (p p' : Vec3) :
    vec3.dot (quat.vecPart (quat.multiply (quat.conj q) (quat.multiply (quat.ofVec p) q)))
      (quat.vecPart (quat.multiply (quat.conj q) (quat.multiply (quat.ofVec p') q))) =
      quat.normSq q ^ 2 * vec3.dot p p' := by
  unfold quat.multiply quat.conj quat.ofVec quat.vecPart quat.normSq vec3.dot
  ring

/-- The arcball `rotateWithQuat` helper preserves dot products when the
quaternion is a unit quaternion. -/
theorem dot_rotateWithQuat_arc (q : Quat) (h : quat.normSq q = 1) (p p' : Vec3) :
    vec3.dot (ArcballCamera.rotateWithQuat p q) (ArcballCamera.rotateWithQuat p' q) =
      vec3.dot p p' := by
  unfold ArcballCamera.rotateWithQuat
  rw [quat_invert_of_unit q h, dot_conj_left, h]
  ring

/-- The trackball `rotateWithQuat` helper preserves dot products when the
quaternion is a unit quaternion. -/
theorem dot_rotateWithQuat_track (q : Quat) (h : quat.normSq q = 1) (p p' : Vec3) :
    vec3.dot (TrackballCamera.rotateWithQuat p q) (TrackballCamera.rotateWithQuat p' q) =
      vec3.dot p p' := by
  unfold TrackballCamera.rotateWithQuat
  rw [quat_invert_of_unit q h, dot_conj_right, h]
  ring

/-- Applying `setAxisAngle` to a unit axis gives a unit quaternion. -/
theorem normSq_setAxisAngle (axis : Vec3) (θ : ℝ) (h : vec3.normSq axis = 1) :
    quat.normSq (quat.setAxisAngle axis θ) = 1 := by
  unfold vec3.normSq at h
  unfold quat.normSq quat.setAxisAngle
  have key : Real.sin (θ * 0.5) * axis.x * (Real.sin (θ * 0.5) * axis.x) +
      Real.sin (θ * 0.5) * axis.y * (Real.sin (θ * 0.5) * axis.y) +
      Real.sin (θ * 0.5) * axis.z * (Real.sin (θ * 0.5) * axis.z) +
      Real.cos (θ * 0.5) * Real.cos (θ * 0.5) =
      Real.sin (θ * 0.5) ^ 2 * (axis.x * axis.x + axis.y * axis.y + axis.z * axis.z) +
        Real.cos (θ * 0.5) ^ 2 := by ring
  rw [key, h, mul_one, Real.sin_sq_add_cos_sq]

/-- Normalizing leaves a unit vector unchanged (`vec3.normalize`). -/
theorem normalize_of_unit (v : Vec3) (h : vec3.normSq v = 1) :
    vec3.normalize v = v := by
  unfold vec3.normalize
  rw [h]
  norm_num [vec3.scale]

/-! ## Claim C7 — what the rotateWithQuat helpers actually compute -/

/-- C7 (amended): `rotate(axis, theta)` builds the quaternion
`q = (sin(theta/2)·axis, cos(theta/2))` and transforms `position`, `up`,
`front`, `right` individually with the per-vector helper; the trackball
helper computes exactly the active rotation `q⁻¹ p q` of the spec, but the
arcball helper computes the opposite conjugation `q p q⁻¹` (with `p`
embedded as the pure quaternion `(p, 0)`). -/
theorem C7_rotateWithQuat_conjugations (p : Vec3) (q : Quat)
    (c : ArcballCamera.State) (axis : Vec3) (θ : ℝ) :
    TrackballCamera.rotateWithQuat p q = specActiveRotation q p ∧
    ArcballCamera.rotateWithQuat p q =
      quat.vecPart (quat.multiply (quat.multiply q (quat.ofVec p)) (quat.invert q)) ∧
    (ArcballCamera.rotate c axis θ).position =
      ArcballCamera.rotateWithQuat c.position (quat.setAxisAngle axis θ) ∧
    (ArcballCamera.rotate c axis θ).up =
      ArcballCamera.rotateWithQuat c.up (quat.setAxisAngle axis θ) ∧
    (ArcballCamera.rotate c axis θ).front =
      ArcballCamera.rotateWithQuat c.front (quat.setAxisAngle axis θ) ∧
    (ArcballCamera.rotate c axis θ).right =
      ArcballCamera.rotateWithQuat c.right (quat.setAxisAngle axis θ) := by
  refine ⟨?_, ?_, rfl, rfl, rfl, rfl⟩
  · unfold TrackballCamera.rotateWithQuat specActiveRotation
    unfold quat.multiply quat.ofVec quat.vecPart
    ext <;> ring
  · unfold ArcballCamera.rotateWithQuat
    unfold quat.multiply quat.ofVec quat.vecPart
    ext <;> ring

/-- C7 (counterexample): for the unit axis `(0,0,1)` and `theta = π/2`, the
arcball `rotateWithQuat` helper applied to `p = (1,0,0)` does not compute the
active rotation `q⁻¹ p q` claimed by the spec (it yields `(0,1,0)` instead of
`(0,-1,0)`). -/
theorem C7_cex :
    ArcballCamera.rotateWithQuat ⟨1, 0, 0⟩ (quat.setAxisAngle ⟨0, 0, 1⟩ (π / 2)) ≠
      specActiveRotation (quat.setAxisAngle ⟨0, 0, 1⟩ (π / 2)) ⟨1, 0, 0⟩ := by
  have hq : quat.setAxisAngle ⟨0, 0, 1⟩ (π / 2) =
      (⟨0, 0, Real.sqrt 2 / 2, Real.sqrt 2 / 2⟩ : Quat) := by
    unfold quat.setAxisAngle
    have harg : π / 2 * 0.5 = π / 4 := by ring
    rw [harg, Real.sin_pi_div_four, Real.cos_pi_div_four]
    ext <;> simp
  have hs : Real.sqrt 2 / 2 * (Real.sqrt 2 / 2) = 1 / 2 := by
    rw [div_mul_div_comm, Real.mul_self_sqrt (by norm_num : (0:ℝ) ≤ 2)]
    norm_num
  have hinv : quat.invert ⟨0, 0, Real.sqrt 2 / 2, Real.sqrt 2 / 2⟩ =
      (⟨0, 0, -(Real.sqrt 2 / 2), Real.sqrt 2 / 2⟩ : Quat) := by
    unfold quat.invert
    simp only
    rw [show (0:ℝ) * 0 + 0 * 0 + Real.sqrt 2 / 2 * (Real.sqrt 2 / 2) +
        Real.sqrt 2 / 2 * (Real.sqrt 2 / 2) = 1 by rw [hs]; norm_num]
    norm_num
  rw [hq]
  unfold ArcballCamera.rotateWithQuat specActiveRotation
  rw [hinv]
  unfold quat.multiply quat.ofVec quat.vecPart
  intro h
  have hy := congrArg Vec3.y h
  simp only at hy
  ring_nf at hy
  rw [Real.sq_sqrt (by norm_num : (0:ℝ) ≤ 2)] at hy
  norm_num at hy

/-! ## Claim C1 — rotation preserves the orthonormal basis -/

/-- One `ArcballCamera.rotate` call with a unit axis preserves exact
orthonormality of the basis. -/
theorem arc_rotate_orthonormal (c : ArcballCamera.State) (axis : Vec3) (θ : ℝ)
    (ha : vec3.normSq axis = 1) (h : OrthonormalTriad c.front c.up c.right) :
    OrthonormalTriad (ArcballCamera.rotate c axis θ).front
      (ArcballCamera.rotate c axis θ).up (ArcballCamera.rotate c axis θ).right := by
  obtain ⟨h1, h2, h3, h4, h5, h6⟩ := h
  rw [vec3_normSq_eq_dot] at h1 h2 h3
  have hq := normSq_setAxisAngle axis θ ha
  unfold OrthonormalTriad ArcballCamera.rotate
  simp only
  rw [vec3_normSq_eq_dot, vec3_normSq_eq_dot, vec3_normSq_eq_dot,
    dot_rotateWithQuat_arc _ hq, dot_rotateWithQuat_arc _ hq,
    dot_rotateWithQuat_arc _ hq, dot_rotateWithQuat_arc _ hq,
    dot_rotateWithQuat_arc _ hq, dot_rotateWithQuat_arc _ hq]
  exact ⟨h1, h2, h3, h4, h5, h6⟩

/-- One `TrackballCamera.rotate` call with a unit axis preserves exact
orthonormality of the basis (the re-normalization of `up`, `front`, `right`
leaves the already-unit vectors unchanged). -/
theorem track_rotate_orthonormal (c : TrackballCamera.State) (axis : Vec3) (θ : ℝ)
    (ha : vec3.normSq axis = 1) (h : OrthonormalTriad c.front c.up c.right) :
    OrthonormalTriad (TrackballCamera.rotate c axis θ).front
      (TrackballCamera.rotate c axis θ).up (TrackballCamera.rotate c axis θ).right := by
  obtain ⟨h1, h2, h3, h4, h5, h6⟩ := h
  rw [vec3_normSq_eq_dot] at h1 h2 h3
  have hq := normSq_setAxisAngle axis θ ha
  have hu : vec3.normSq (TrackballCamera.rotateWithQuat c.up (quat.setAxisAngle axis θ)) = 1 := by
    rw [vec3_normSq_eq_dot, dot_rotateWithQuat_track _ hq]; exact h2
  have hf : vec3.normSq (TrackballCamera.rotateWithQuat c.front (quat.setAxisAngle axis θ)) = 1 := by
    rw [vec3_normSq_eq_dot, dot_rotateWithQuat_track _ hq]; exact h1
  have hr : vec3.normSq (TrackballCamera.rotateWithQuat c.right (quat.setAxisAngle axis θ)) = 1 := by
    rw [vec3_normSq_eq_dot, dot_rotateWithQuat_track _ hq]; exact h3
  unfold OrthonormalTriad TrackballCamera.rotate
  simp only
  rw [normalize_of_unit _ hu, normalize_of_unit _ hf, normalize_of_unit _ hr,
    vec3_normSq_eq_dot, vec3_normSq_eq_dot, vec3_normSq_eq_dot,
    dot_rotateWithQuat_track _ hq, dot_rotateWithQuat_track _ hq,
    dot_rotateWithQuat_track _ hq, dot_rotateWithQuat_track _ hq,
    dot_rotateWithQuat_track _ hq, dot_rotateWithQuat_track _ hq]
  exact ⟨h1, h2, h3, h4, h5, h6⟩

/-- Orthonormality is preserved along any sequence of unit-axis arcball
rotations. -/
theorem arc_rotateList_orthonormal (rs : List (Vec3 × ℝ)) :
    ∀ c : ArcballCamera.State, (∀ r ∈ rs, vec3.normSq r.1 = 1) →
      OrthonormalTriad c.front c.up c.right →
      OrthonormalTriad (ArcballCamera.rotateList c rs).front
        (ArcballCamera.rotateList c rs).up (ArcballCamera.rotateList c rs).right := by
  induction rs with
  | nil => intro c _ h; simpa [ArcballCamera.rotateList] using h
  | cons hd tl ih =>
    intro c ha h
    have hstep := arc_rotate_orthonormal c hd.1 hd.2 (ha hd (List.mem_cons_self _ _)) h
    have htl : ∀ r ∈ tl, vec3.normSq r.1 = 1 := fun r hr => ha r (List.mem_cons_of_mem _ hr)
    simpa [ArcballCamera.rotateList, List.foldl_cons] using
      ih (ArcballCamera.rotate c hd.1 hd.2) htl hstep

/-- Orthonormality is preserved along any sequence of unit-axis trackball
rotations. -/
theorem track_rotateList_orthonormal (rs : List (Vec3 × ℝ)) :
    ∀ c : TrackballCamera.State, (∀ r ∈ rs, vec3.normSq r.1 = 1) →
      OrthonormalTriad c.front c.up c.right →
      OrthonormalTriad (TrackballCamera.rotateList c rs).front
        (TrackballCamera.rotateList c rs).up (TrackballCamera.rotateList c rs).right := by
  induction rs with
  | nil => intro c _ h; simpa [TrackballCamera.rotateList] using h
  | cons hd tl ih =>
    intro c ha h
    have hstep := track_rotate_orthonormal c hd.1 hd.2 (ha hd (List.mem_cons_self _ _)) h
    have htl : ∀ r ∈ tl, vec3.normSq r.1 = 1 := fun r hr => ha r (List.mem_cons_of_mem _ hr)
    simpa [TrackballCamera.rotateList, List.foldl_cons] using
      ih (TrackballCamera.rotate c hd.1 hd.2) htl hstep

/-- Exact orthonormality implies the toleranced property of claim C1. -/
theorem unitTol_of_orthonormal (f u r : Vec3) (h : OrthonormalTriad f u r) :
    UnitBasisWithTolerance f u r := by
  obtain ⟨h1, h2, h3, h4, h5, h6⟩ := h
  unfold UnitBasisWithTolerance vec3.length
  rw [h1, h2, h3, h4, h5, h6, Real.sqrt_one]
  norm_num

/-- C1: for every arcball/trackball camera whose basis satisfies the stated
invariant (orthonormal at the start) and every finite sequence of
`rotate(axis, theta)` calls with unit-length axes, the vectors `front`, `up`,
`right` are unit length with pairwise dot products within `1e-4` of zero
after the sequence (hence after each call, since the statement applies to
every prefix). -/
theorem C1_rotate_sequence_keeps_unit_orthonormal_basis
    (c : ArcballCamera.State) (t : TrackballCamera.State) (rs : List (Vec3 × ℝ))
    (haxes : ∀ r ∈ rs, vec3.length r.1 = 1)
    (hc : OrthonormalTriad c.front c.up c.right)
    (ht : OrthonormalTriad t.front t.up t.right) :
    UnitBasisWithTolerance (ArcballCamera.rotateList c rs).front
      (ArcballCamera.rotateList c rs).up (ArcballCamera.rotateList c rs).right ∧
    UnitBasisWithTolerance (TrackballCamera.rotateList t rs).front
      (TrackballCamera.rotateList t rs).up (TrackballCamera.rotateList t rs).right := by
  have haxes2 : ∀ r ∈ rs, vec3.normSq r.1 = 1 := by
    intro r hr
    have := haxes r hr
    unfold vec3.length at this
    exact Real.sqrt_eq_one.mp this
  exact ⟨unitTol_of_orthonormal _ _ _ (arc_rotateList_orthonormal rs c haxes2 hc),
    unitTol_of_orthonormal _ _ _ (track_rotateList_orthonormal rs t haxes2 ht)⟩

/-- Witness for C1: a concrete camera with orthonormal basis
`front=(0,0,-1)`, `up=(0,1,0)`, `right=(1,0,0)` and the one-element rotation
sequence `[(axis=(0,0,1), theta=0)]` satisfies the hypotheses, and the
conclusion follows by the theorem. -/
theorem C1_witness :
    (∀ r ∈ ([(⟨⟨0, 0, 1⟩, 0⟩ : Vec3 × ℝ)] : List (Vec3 × ℝ)), vec3.length r.1 = 1) ∧
    OrthonormalTriad ⟨0, 0, -1⟩ ⟨0, 1, 0⟩ ⟨1, 0, 0⟩ ∧
    (UnitBasisWithTolerance
      (ArcballCamera.rotateList
        { position := ⟨0, 0, 4⟩, target := ⟨0, 0, 0⟩, up := ⟨0, 1, 0⟩,
          front := ⟨0, 0, -1⟩, right := ⟨1, 0, 0⟩, animation := none }
        [⟨⟨0, 0, 1⟩, 0⟩]).front
      (ArcballCamera.rotateList
        { position := ⟨0, 0, 4⟩, target := ⟨0, 0, 0⟩, up := ⟨0, 1, 0⟩,
          front := ⟨0, 0, -1⟩, right := ⟨1, 0, 0⟩, animation := none }
        [⟨⟨0, 0, 1⟩, 0⟩]).up
      (ArcballCamera.rotateList
        { position := ⟨0, 0, 4⟩, target := ⟨0, 0, 0⟩, up := ⟨0, 1, 0⟩,
          front := ⟨0, 0, -1⟩, right := ⟨1, 0, 0⟩, animation := none }
        [⟨⟨0, 0, 1⟩, 0⟩]).right ∧
    UnitBasisWithTolerance
      (TrackballCamera.rotateList
        { center := ⟨0, 0, 0⟩, position := ⟨0, 0, 4⟩, up := ⟨0, 1, 0⟩,
          front := ⟨0, 0, -1⟩, right := ⟨1, 0, 0⟩ }
        [⟨⟨0, 0, 1⟩, 0⟩]).front
      (TrackballCamera.rotateList
        { center := ⟨0, 0, 0⟩, position := ⟨0, 0, 4⟩, up := ⟨0, 1, 0⟩,
          front := ⟨0, 0, -1⟩, right := ⟨1, 0, 0⟩ }
        [⟨⟨0, 0, 1⟩, 0⟩]).up
      (TrackballCamera.rotateList
        { center := ⟨0, 0, 0⟩, position := ⟨0, 0, 4⟩, up := ⟨0, 1, 0⟩,
          front := ⟨0, 0, -1⟩, right := ⟨1, 0, 0⟩ }
        [⟨⟨0, 0, 1⟩, 0⟩]).right) := by
  have haxes : ∀ r ∈ ([(⟨⟨0, 0, 1⟩, 0⟩ : Vec3 × ℝ)] : List (Vec3 × ℝ)),
      vec3.length r.1 = 1 := by
    intro r hr
    rw [List.mem_singleton] at hr
    subst hr
    unfold vec3.length vec3.normSq
    norm_num
  have htriad : OrthonormalTriad (⟨0, 0, -1⟩ : Vec3) ⟨0, 1, 0⟩ ⟨1, 0, 0⟩ := by
    unfold OrthonormalTriad vec3.normSq vec3.dot
    norm_num
  exact ⟨haxes, htriad,
    C1_rotate_sequence_keeps_unit_orthonormal_basis _ _ _ haxes htriad htriad⟩

/-! ## Claim C8 — blur/focus handling -/

/-- C8: the focus-loss/blur handler clears a non-animating interaction to
idle and leaves an in-progress animating interaction unchanged.  In the
`ArcballCamera` the handler returns early exactly when animating; the
`TrackballCamera` has no animating interaction variant at all and its handler
clears every interaction. -/
theorem C8_blur_handling
    (a : Option ArcballCamera.Animation) (i : Option TrackballCamera.Interaction) :
    (ArcballCamera.isAnimating a = true → ArcballCamera.onBlurAndFocus a = a) ∧
    (ArcballCamera.isAnimating a = false → ArcballCamera.onBlurAndFocus a = none) ∧
    TrackballCamera.onBlurAndFocus i = none := by
  refine ⟨?_, ?_, rfl⟩
  · intro h
    unfold ArcballCamera.onBlurAndFocus
    rw [h]
    simp
  · intro h
    unfold ArcballCamera.onBlurAndFocus
    rw [h]
    simp

/-- Witness for C8: a concrete active animation survives blur unchanged,
while a concrete panning interaction is cleared to idle. -/
theorem C8_witness :
    (ArcballCamera.isAnimating (some (.animating ⟨0, 1000, 1, ⟨0, 1, 0⟩, 0, 1⟩)) = true ∧
      ArcballCamera.onBlurAndFocus (some (.animating ⟨0, 1000, 1, ⟨0, 1, 0⟩, 0, 1⟩)) =
        some (.animating ⟨0, 1000, 1, ⟨0, 1, 0⟩, 0, 1⟩)) ∧
    (ArcballCamera.isAnimating (some .panning) = false ∧
      ArcballCamera.onBlurAndFocus (some .panning) = none) ∧
    TrackballCamera.onBlurAndFocus (some (.panning 3 4)) = none :=
  ⟨⟨rfl, (C8_blur_handling (some (.animating ⟨0, 1000, 1, ⟨0, 1, 0⟩, 0, 1⟩)) none).1 rfl⟩,
   ⟨rfl, (C8_blur_handling (some .panning) none).2.1 rfl⟩,
   (C8_blur_handling none (some (.panning 3 4))).2.2⟩

/-! ## Claim C3 — rotateWithAnimation while already animating -/

/-- C3 (bug evidence): starting a new animation while one is active fires the
warning but does NOT drop the request — the original animation payload
(`targetAngle = π`, `duration = 1000`) is replaced by the new one
(`targetAngle = 2`, `duration = 500`), contradicting both the spec and the
intent of the warning message itself. -/
theorem C3_rotateWithAnimation_replaces_payload :
    (ArcballCamera.rotateWithAnimation
      { position := ⟨0, 0, 4⟩, target := ⟨0, 0, 0⟩, up := ⟨0, 1, 0⟩,
        front := ⟨0, 0, -1⟩, right := ⟨1, 0, 0⟩,
        animation := some (.animating ⟨0, 1000, π / 1000, ⟨0, 1, 0⟩, 0, π⟩) }
      100 ⟨1, 0, 0⟩ 2 500).2 = true ∧
    (ArcballCamera.rotateWithAnimation
      { position := ⟨0, 0, 4⟩, target := ⟨0, 0, 0⟩, up := ⟨0, 1, 0⟩,
        front := ⟨0, 0, -1⟩, right := ⟨1, 0, 0⟩,
        animation := some (.animating ⟨0, 1000, π / 1000, ⟨0, 1, 0⟩, 0, π⟩) }
      100 ⟨1, 0, 0⟩ 2 500).1.animation =
      some (.animating ⟨100, 500, 2 / 500, ⟨1, 0, 0⟩, 0, 2⟩) ∧
    (2 : ℝ) ≠ π ∧ (500 : ℝ) ≠ 1000 := by
  refine ⟨rfl, rfl, ?_, by norm_num⟩
  intro h
  have := Real.pi_gt_three
  rw [← h] at this
  norm_num at this

/-! ## Claim C10 — update across the camera variants -/

/-- C10 (amended): `update(dt)` returns normally for the `SphericalCamera`
(empty body), the `ArcballCamera` and the `TrackballCamera` (no throwing
operation in any branch), but `ArcballCameraSpherical.update` always throws
`"Method not implemented."` for every `dt`. -/
theorem C10_update_totality :
    (∀ dt : ℝ, SphericalCamera.update dt = Except.ok ()) ∧
    (∀ (c : ArcballCamera.State) (now dt : ℝ),
      ∃ c2, ArcballCamera.update c now dt = Except.ok c2) ∧
    (∀ (c : TrackballCamera.State) (i : Option TrackballCamera.Interaction) (dt : ℝ),
      ∃ c2, TrackballCamera.update c i dt = Except.ok c2) ∧
    (∀ dt : ℝ, ArcballCameraSpherical.update dt =
      Except.error "Method not implemented.") := by
  refine ⟨fun _ => rfl, ?_, ?_, fun _ => rfl⟩
  · intro c now dt
    unfold ArcballCamera.update
    match hc : c.animation with
    | none => exact ⟨c, rfl⟩
    | some (.animating a) =>
      simp only
      split
      · exact ⟨_, rfl⟩
      · exact ⟨_, rfl⟩
    | some (.rotating l cur ax) => exact ⟨c, rfl⟩
    | some .panning => exact ⟨c, rfl⟩
  · intro c i dt
    unfold TrackballCamera.update
    match i with
    | none => exact ⟨c, rfl⟩
    | some (.rotating l cur ax q) => exact ⟨c, rfl⟩
    | some (.panning lx ly) => exact ⟨c, rfl⟩
    | some (.rotatingVelocity s ax) => exact ⟨_, rfl⟩
    | some (.panningVelocity d s) => exact ⟨_, rfl⟩

/-- C10 (counterexample): the `ArcballCameraSpherical` variant implements the
`Camera` contract, yet its `update` throws on every call — here at
`dt = 16`. -/
theorem C10_cex :
    ArcballCameraSpherical.update 16 = Except.error "Method not implemented." := rfl

/-! ## Claim C2 — animated rotation semantics -/

/-- C2 (amended): while an animation is installed, `update(dt)` at wall-clock
time `now` clears the animating state — rotating by nothing that tick — as
soon as `now ≥ startTime + duration` or `currentAngle ≥ targetAngle`;
otherwise it advances `currentAngle` by `angularVelocity·dt` and rotates the
camera by the same delta.  No clamping of the final partial step is
performed, so the cumulative rotation can undershoot or overshoot the
requested total angle. -/
theorem C2_update_animating_semantics
    (c : ArcballCamera.State) (a : ArcballCamera.AnimationAnimating) (now dt : ℝ)
    (hc : c.animation = some (.animating a)) :
    (now ≥ a.duration + a.startTime ∨ a.currentAngle ≥ a.targetAngle →
      ArcballCamera.update c now dt = .ok { c with animation := none }) ∧
    (now < a.duration + a.startTime → a.currentAngle < a.targetAngle →
      ArcballCamera.update c now dt = .ok
        { ArcballCamera.rotate c a.rotationAxis (a.angularVelocity * dt) with
          animation := some (.animating
            { a with currentAngle := a.currentAngle + a.angularVelocity * dt }) }) := by
  constructor
  · intro h
    unfold ArcballCamera.update
    rw [hc]
    simp only
    rw [if_pos h]
  · intro h1 h2
    unfold ArcballCamera.update
    rw [hc]
    simp only
    rw [if_neg (by push_neg; exact ⟨h1, h2⟩)]

/-- Witness for C2: a concrete animating camera; at `now = 2000` the first
branch fires (the animation is cleared), at `now = 500` the second branch
fires (angle advance plus rotation). -/
theorem C2_witness :
    ((2000 : ℝ) ≥ 1000 + 0 ∨ (0 : ℝ) ≥ 10) ∧
    ArcballCamera.update
      { position := ⟨0, 0, 4⟩, target := ⟨0, 0, 0⟩, up := ⟨0, 1, 0⟩,
        front := ⟨0, 0, -1⟩, right := ⟨1, 0, 0⟩,
        animation := some (.animating ⟨0, 1000, 1, ⟨0, 1, 0⟩, 0, 10⟩) } 2000 1 =
      .ok { position := ⟨0, 0, 4⟩, target := ⟨0, 0, 0⟩, up := ⟨0, 1, 0⟩,
            front := ⟨0, 0, -1⟩, right := ⟨1, 0, 0⟩, animation := none } ∧
    (500 : ℝ) < 1000 + 0 ∧ (0 : ℝ) < 10 ∧
    ArcballCamera.update
      { position := ⟨0, 0, 4⟩, target := ⟨0, 0, 0⟩, up := ⟨0, 1, 0⟩,
        front := ⟨0, 0, -1⟩, right := ⟨1, 0, 0⟩,
        animation := some (.animating ⟨0, 1000, 1, ⟨0, 1, 0⟩, 0, 10⟩) } 500 1 =
      .ok { ArcballCamera.rotate
              { position := ⟨0, 0, 4⟩, target := ⟨0, 0, 0⟩, up := ⟨0, 1, 0⟩,
                front := ⟨0, 0, -1⟩, right := ⟨1, 0, 0⟩,
                animation := some (.animating ⟨0, 1000, 1, ⟨0, 1, 0⟩, 0, 10⟩) }
              ⟨0, 1, 0⟩ (1 * 1) with
            animation := some (.animating ⟨0, 1000, 1, ⟨0, 1, 0⟩, 0 + 1 * 1, 10⟩) } :=
  ⟨Or.inl (by norm_num),
   (C2_update_animating_semantics _ ⟨0, 1000, 1, ⟨0, 1, 0⟩, 0, 10⟩ 2000 1 rfl).1
     (Or.inl (by norm_num)),
   by norm_num, by norm_num,
   (C2_update_animating_semantics _ ⟨0, 1000, 1, ⟨0, 1, 0⟩, 0, 10⟩ 500 1 rfl).2
     (by norm_num) (by norm_num)⟩

/-- C2 (counterexample): running the spec example
`rotateWithAnimation(axis=[0,1,0], angle=π, duration=1000)` with `update(500)`
at `now = 500` and then `update(600)` at `now = 1100` delivers a cumulative
rotation of `π/2` — the second tick clears the animation without rotating, so
the cumulative rotation is never clamped up to `π` as the claim states. -/
theorem C2_cex :
    ArcballCamera.update animExample1 500 500 = .ok animExample2 ∧
    ArcballCamera.currentAngleOf animExample2.animation = π / 2 ∧
    ArcballCamera.update animExample2 1100 600 =
      .ok { animExample2 with animation := none } ∧
    π / 2 ≠ π := by
  refine ⟨?_, ?_, ?_, ?_⟩
  · unfold ArcballCamera.update
    have hanim : animExample1.animation =
        some (.animating ⟨0, 1000, π / 1000, ⟨0, 1, 0⟩, 0, π⟩) := rfl
    rw [hanim]
    simp only
    rw [if_neg (by push_neg; exact ⟨by norm_num, Real.pi_pos⟩)]
    rfl
  · show (0 : ℝ) + π / 1000 * 500 = π / 2
    ring
  · unfold ArcballCamera.update
    have hanim : animExample2.animation =
        some (.animating ⟨0, 1000, π / 1000, ⟨0, 1, 0⟩, 0 + π / 1000 * 500, π⟩) := rfl
    rw [hanim]
    simp only
    rw [if_pos (Or.inl (by norm_num))]
  · intro h
    have := Real.pi_pos
    linarith

/-! ## Claim C9 — hemisphere-projection precondition -/

/-- C9 (amended): in the `ArcballCamera` the hemisphere-projection helper
raises exactly when the interaction is not `rotating` and returns normally
when it is; the `TrackballCamera` helper performs no such check and returns
normally for every interaction state. -/
theorem C9_calculateNormalizedCoordinates_guard
    (a : Option ArcballCamera.Animation) (front : Vec3) (w h x y : ℝ)
    (i : Option TrackballCamera.Interaction) :
    (ArcballCamera.isRotating a = false →
      ArcballCamera.calculateNormalizedCoordinates a front w h x y =
        .error "programming error: this method is only allowed during rotating") ∧
    (ArcballCamera.isRotating a = true →
      ∃ v, ArcballCamera.calculateNormalizedCoordinates a front w h x y = .ok v) ∧
    (∃ v, TrackballCamera.calculateNormalizedCoordinates i w h x y = .ok v) := by
  refine ⟨?_, ?_, ⟨_, rfl⟩⟩
  · intro hna
    unfold ArcballCamera.calculateNormalizedCoordinates
    rw [if_pos]
    simp [hna]
  · intro hra
    unfold ArcballCamera.calculateNormalizedCoordinates
    rw [if_neg]
    · exact ⟨_, rfl⟩
    · simp [hra]

/-- Witness for C9: with a concrete rotating interaction the arcball helper
returns normally; with a concrete idle state it raises; the trackball helper
returns normally regardless. -/
theorem C9_witness :
    (ArcballCamera.isRotating none = false ∧
      ArcballCamera.calculateNormalizedCoordinates none ⟨0, 0, -1⟩ 3 3 1 1 =
        .error "programming error: this method is only allowed during rotating") ∧
    (ArcballCamera.isRotating (some (.rotating ⟨0, 0, 0⟩ ⟨0, 0, 0⟩ ⟨0, 0, 0⟩)) = true ∧
      ∃ v, ArcballCamera.calculateNormalizedCoordinates
        (some (.rotating ⟨0, 0, 0⟩ ⟨0, 0, 0⟩ ⟨0, 0, 0⟩)) ⟨0, 0, -1⟩ 3 3 1 1 = .ok v) ∧
    (∃ v, TrackballCamera.calculateNormalizedCoordinates none 3 3 1 1 = .ok v) :=
  ⟨⟨rfl, (C9_calculateNormalizedCoordinates_guard none ⟨0, 0, -1⟩ 3 3 1 1 none).1 rfl⟩,
   ⟨rfl, (C9_calculateNormalizedCoordinates_guard
      (some (.rotating ⟨0, 0, 0⟩ ⟨0, 0, 0⟩ ⟨0, 0, 0⟩)) ⟨0, 0, -1⟩ 3 3 1 1 none).2.1 rfl⟩,
   (C9_calculateNormalizedCoordinates_guard none ⟨0, 0, -1⟩ 3 3 1 1 none).2.2⟩

/-- C9 (counterexample): invoking the trackball hemisphere helper with no
active interaction (a non-rotating camera state) does not raise — it returns
the projected point `(0,0,1)` for a pointer at the center of a 3×3 canvas —
so the claimed fatal precondition violation does not happen in every
formulation. -/
theorem C9_cex :
    TrackballCamera.calculateNormalizedCoordinates none 3 3 1 1 =
      .ok (⟨0, 0, 1⟩ : Vec3) := by
  unfold TrackballCamera.calculateNormalizedCoordinates
  have hfloor : (⌊(3 : ℝ) / 2 - 0.99 + 0.5⌋ : ℤ) = 1 := by
    rw [Int.floor_eq_iff]
    constructor <;> norm_num
  rw [hfloor]
  norm_num
  rw [normalize_of_unit]
  · unfold vec3.normSq
    norm_num


/-! ## Claim C4 — trackball dolly minimum standoff -/

/-- Squared length of a scaled vector. -/
theorem normSq_scale (v : Vec3) (k : ℝ) :
    vec3.normSq (vec3.scale v k) = k ^ 2 * vec3.normSq v := by
  unfold vec3.normSq vec3.scale
  ring

/-- Dot product against a scaled right argument. -/
theorem dot_scale_right (v w : Vec3) (k : ℝ) :
    vec3.dot v (vec3.scale w k) = k * vec3.dot v w := by
  unfold vec3.dot vec3.scale
  ring

/-- Dot product with a scaled left argument. -/
theorem dot_scale_left (v w : Vec3) (k : ℝ) :
    vec3.dot (vec3.scale v k) w = k * vec3.dot v w := by
  unfold vec3.dot vec3.scale
  ring

/-- Squared lengths are nonnegative. -/
theorem normSq_nonneg (v : Vec3) : 0 ≤ vec3.normSq v := by
  unfold vec3.normSq
  have hx := mul_self_nonneg v.x
  have hy := mul_self_nonneg v.y
  have hz := mul_self_nonneg v.z
  linarith

/-- On a positive-squared-length vector, `vec3.normalize` takes the scaling
branch. -/
theorem normalize_pos (v : Vec3) (h : 0 < vec3.normSq v) :
    vec3.normalize v = vec3.scale v (1 / Real.sqrt (vec3.normSq v)) := by
  simp only [vec3.normalize]
  rw [if_pos h]

/-- Cauchy–Schwarz for the embedded dot product: against a unit vector, the
dot product is at most the length. -/
theorem dot_le_length (v f : Vec3) (hf : vec3.normSq f = 1) :
    vec3.dot v f ≤ vec3.length v := by
  have cs : (vec3.dot v f) ^ 2 ≤ vec3.normSq v * vec3.normSq f := by
    unfold vec3.dot vec3.normSq
    nlinarith [sq_nonneg (v.x * f.y - v.y * f.x), sq_nonneg (v.x * f.z - v.z * f.x),
      sq_nonneg (v.y * f.z - v.z * f.y)]
  rw [hf, mul_one] at cs
  calc vec3.dot v f ≤ |vec3.dot v f| := le_abs_self _
    _ = Real.sqrt ((vec3.dot v f) ^ 2) := (Real.sqrt_sq_eq_abs _).symm
    _ ≤ Real.sqrt (vec3.normSq v) := Real.sqrt_le_sqrt cs
    _ = vec3.length v := rfl

/-- One `TrackballCamera.dolly` call from a unit-front state restores the
minimum standoff: afterwards `dot(center - position, front) ≥ 5`, `front` is
again a unit vector, `center` is untouched, and when the clamp condition
fires the position is exactly `center - front·5`. -/
theorem dolly_invariant (c : TrackballCamera.State) (dz : ℝ)
    (hf : vec3.length c.front = 1) :
    5 ≤ vec3.dot (vec3.subtract (TrackballCamera.dolly c dz).center
        (TrackballCamera.dolly c dz).position) (TrackballCamera.dolly c dz).front ∧
    vec3.length (TrackballCamera.dolly c dz).front = 1 ∧
    (TrackballCamera.dolly c dz).center = c.center ∧
    (vec3.dot (vec3.subtract c.center (vec3.scaleAndAdd c.position c.front dz))
        c.front < 5 →
      (TrackballCamera.dolly c dz).position =
        vec3.scaleAndAdd c.center c.front (-5)) := by
  have hf2 : vec3.normSq c.front = 1 := by
    unfold vec3.length at hf
    exact Real.sqrt_eq_one.mp hf
  unfold TrackballCamera.dolly TrackballCamera.recalculate
  simp only
  by_cases hclamp :
      vec3.dot (vec3.subtract c.center (vec3.scaleAndAdd c.position c.front dz))
        c.front < 5
  · rw [if_pos hclamp]
    have hsub : vec3.subtract c.center (vec3.scaleAndAdd c.center c.front (-5)) =
        vec3.scale c.front 5 := by
      unfold vec3.subtract vec3.scaleAndAdd vec3.scale
      ext <;> ring
    rw [hsub]
    have h25 : vec3.normSq (vec3.scale c.front 5) = 25 := by
      rw [normSq_scale, hf2]
      norm_num
    have hnorm : vec3.normalize (vec3.scale c.front 5) = c.front := by
      rw [normalize_pos _ (by rw [h25]; norm_num), h25,
        show (25 : ℝ) = 5 ^ 2 by norm_num, Real.sqrt_sq (by norm_num : (0:ℝ) ≤ 5)]
      unfold vec3.scale
      ext <;> (simp only; ring)
    rw [hnorm]
    refine ⟨?_, hf, trivial, fun _ => rfl⟩
    rw [dot_scale_left, ← vec3_normSq_eq_dot, hf2]
    norm_num
  · rw [if_neg hclamp]
    set v0 := vec3.subtract c.center (vec3.scaleAndAdd c.position c.front dz) with hv0
    have hd : 5 ≤ vec3.dot v0 c.front := not_lt.mp hclamp
    have hlenv : 5 ≤ vec3.length v0 := le_trans hd (dot_le_length v0 c.front hf2)
    have hlpos : 0 < vec3.normSq v0 := by
      have hs : 0 < Real.sqrt (vec3.normSq v0) := by
        unfold vec3.length at hlenv
        linarith
      exact Real.sqrt_pos.mp hs
    rw [normalize_pos _ hlpos]
    refine ⟨?_, ?_, trivial, fun hcon => absurd hcon hclamp⟩
    · rw [dot_scale_right, ← vec3_normSq_eq_dot]
      have key : 1 / Real.sqrt (vec3.normSq v0) * vec3.normSq v0 =
          Real.sqrt (vec3.normSq v0) := by
        rw [one_div, mul_comm, ← div_eq_mul_inv, Real.div_sqrt]
      rw [key]
      exact hlenv
    · have key : vec3.normSq (vec3.scale v0 (1 / Real.sqrt (vec3.normSq v0))) = 1 := by
        rw [normSq_scale, div_pow, one_pow, Real.sq_sqrt (normSq_nonneg v0)]
        field_simp
      unfold vec3.length
      rw [key, Real.sqrt_one]

/-- The dolly invariant holds after any nonempty sequence of dolly calls
from a unit-front state. -/
theorem dollyList_invariant (dzs : List ℝ) :
    ∀ (c : TrackballCamera.State) (dz : ℝ), vec3.length c.front = 1 →
      5 ≤ vec3.dot (vec3.subtract (TrackballCamera.dollyList c (dz :: dzs)).center
          (TrackballCamera.dollyList c (dz :: dzs)).position)
          (TrackballCamera.dollyList c (dz :: dzs)).front ∧
      vec3.length (TrackballCamera.dollyList c (dz :: dzs)).front = 1 := by
  induction dzs with
  | nil =>
    intro c dz h
    have hstep := dolly_invariant c dz h
    simp only [TrackballCamera.dollyList, List.foldl_cons, List.foldl_nil]
    exact ⟨hstep.1, hstep.2.1⟩
  | cons d ds ih =>
    intro c dz h
    have hstep := dolly_invariant c dz h
    have hrec := ih (TrackballCamera.dolly c dz) d hstep.2.1
    simpa [TrackballCamera.dollyList, List.foldl_cons] using hrec

/-- C4: from any trackball state with unit `front`, after `dolly(dz)` — and
after any further sequence of dolly calls — the camera satisfies
`dot(center - position, front) ≥ 5`; the camera never reaches `center`; and
whenever the clamp condition fires the position is snapped to exactly
`center - front·5`. -/
theorem C4_dolly_min_standoff (c : TrackballCamera.State) (dz : ℝ) (dzs : List ℝ)
    (hf : vec3.length c.front = 1) :
    5 ≤ vec3.dot (vec3.subtract (TrackballCamera.dollyList c (dz :: dzs)).center
        (TrackballCamera.dollyList c (dz :: dzs)).position)
        (TrackballCamera.dollyList c (dz :: dzs)).front ∧
    (TrackballCamera.dollyList c (dz :: dzs)).position ≠
      (TrackballCamera.dollyList c (dz :: dzs)).center ∧
    (vec3.dot (vec3.subtract c.center (vec3.scaleAndAdd c.position c.front dz))
        c.front < 5 →
      (TrackballCamera.dolly c dz).position =
        vec3.scaleAndAdd c.center c.front (-5)) := by
  obtain ⟨hdot, hlen⟩ := dollyList_invariant dzs c dz hf
  refine ⟨hdot, ?_, (dolly_invariant c dz hf).2.2.2⟩
  intro heq
  rw [heq] at hdot
  have hzero : vec3.dot
      (vec3.subtract (TrackballCamera.dollyList c (dz :: dzs)).center
        (TrackballCamera.dollyList c (dz :: dzs)).center)
      (TrackballCamera.dollyList c (dz :: dzs)).front = 0 := by
    unfold vec3.subtract vec3.dot
    ring
  rw [hzero] at hdot
  linarith

/-- Witness for C4: the spec example — `center=(0,0,0)`, `position=(0,0,10)`
(`r = 10`), unit `front=(0,0,-1)` — dollied by the large delta `dz = 100`:
the clamp fires and the standoff invariant holds afterwards. -/
theorem C4_witness :
    vec3.length (⟨0, 0, -1⟩ : Vec3) = 1 ∧
    vec3.dot (vec3.subtract (⟨0, 0, 0⟩ : Vec3)
        (vec3.scaleAndAdd ⟨0, 0, 10⟩ ⟨0, 0, -1⟩ 100)) ⟨0, 0, -1⟩ < 5 ∧
    (5 ≤ vec3.dot (vec3.subtract
        (TrackballCamera.dollyList
          { center := ⟨0, 0, 0⟩, position := ⟨0, 0, 10⟩, up := ⟨0, 1, 0⟩,
            front := ⟨0, 0, -1⟩, right := ⟨1, 0, 0⟩ } [100]).center
        (TrackballCamera.dollyList
          { center := ⟨0, 0, 0⟩, position := ⟨0, 0, 10⟩, up := ⟨0, 1, 0⟩,
            front := ⟨0, 0, -1⟩, right := ⟨1, 0, 0⟩ } [100]).position)
        (TrackballCamera.dollyList
          { center := ⟨0, 0, 0⟩, position := ⟨0, 0, 10⟩, up := ⟨0, 1, 0⟩,
            front := ⟨0, 0, -1⟩, right := ⟨1, 0, 0⟩ } [100]).front) ∧
    (TrackballCamera.dolly
        { center := ⟨0, 0, 0⟩, position := ⟨0, 0, 10⟩, up := ⟨0, 1, 0⟩,
          front := ⟨0, 0, -1⟩, right := ⟨1, 0, 0⟩ } 100).position =
      vec3.scaleAndAdd ⟨0, 0, 0⟩ ⟨0, 0, -1⟩ (-5) := by
  have hlen : vec3.length (⟨0, 0, -1⟩ : Vec3) = 1 := by
    unfold vec3.length vec3.normSq
    norm_num
  have hcond : vec3.dot (vec3.subtract (⟨0, 0, 0⟩ : Vec3)
      (vec3.scaleAndAdd ⟨0, 0, 10⟩ ⟨0, 0, -1⟩ 100)) ⟨0, 0, -1⟩ < 5 := by
    unfold vec3.dot vec3.subtract vec3.scaleAndAdd
    norm_num
  have happ := C4_dolly_min_standoff
    { center := ⟨0, 0, 0⟩, position := ⟨0, 0, 10⟩, up := ⟨0, 1, 0⟩,
      front := ⟨0, 0, -1⟩, right := ⟨1, 0, 0⟩ } 100 [] hlen
  exact ⟨hlen, hcond, happ.1, happ.2.2 hcond⟩

/-! ## Claim C5 — wrapped angle addition -/

/-- Unfolding `wrapDown` below the threshold. -/
theorem wrapDown_of_le {x : ℝ} (h : x ≤ π) : SphericalCamera.wrapDown x = x := by
  rw [SphericalCamera.wrapDown]
  rw [dif_neg (not_lt.mpr h)]

/-- One iteration of the first wrapping loop. -/
theorem wrapDown_step {x : ℝ} (h : π < x) :
    SphericalCamera.wrapDown x = SphericalCamera.wrapDown (x - 2 * π) := by
  conv_lhs => rw [SphericalCamera.wrapDown]
  rw [dif_pos h]

/-- Unfolding `wrapUp` above the threshold. -/
theorem wrapUp_of_ge {x : ℝ} (h : -π ≤ x) : SphericalCamera.wrapUp x = x := by
  rw [SphericalCamera.wrapUp]
  rw [dif_neg (not_lt.mpr h)]

/-- One iteration of the second wrapping loop. -/
theorem wrapUp_step {x : ℝ} (h : x < -π) :
    SphericalCamera.wrapUp x = SphericalCamera.wrapUp (x + 2 * π) := by
  conv_lhs => rw [SphericalCamera.wrapUp]
  rw [dif_pos h]

/-- The first loop always ends at or below `π`. -/
theorem wrapDown_le (x : ℝ) : SphericalCamera.wrapDown x ≤ π := by
  induction x using SphericalCamera.wrapDown.induct with
  | case1 x h ih =>
    rw [wrapDown_step h]
    exact ih
  | case2 x h =>
    rw [wrapDown_of_le (not_lt.mp h)]
    exact not_lt.mp h

/-- The second loop always ends at or above `-π`. -/
theorem wrapUp_ge (x : ℝ) : -π ≤ SphericalCamera.wrapUp x := by
  induction x using SphericalCamera.wrapUp.induct with
  | case1 x h ih =>
    rw [wrapUp_step h]
    exact ih
  | case2 x h =>
    rw [wrapUp_of_ge (not_lt.mp h)]
    exact not_lt.mp h

/-- The second loop preserves being at or below `π`. -/
theorem wrapUp_le (x : ℝ) : x ≤ π → SphericalCamera.wrapUp x ≤ π := by
  induction x using SphericalCamera.wrapUp.induct with
  | case1 x h ih =>
    intro _
    rw [wrapUp_step h]
    have hπ := Real.pi_pos
    exact ih (by linarith)
  | case2 x h =>
    intro hx
    rw [wrapUp_of_ge (not_lt.mp h)]
    exact hx

/-- C5 (amended): the wrapped angle addition always lands in the closed
interval `[-π, π]` (the value `-π` itself is reachable), and it is
`2π`-periodic at every sum except exactly `-π`:
`wrap(θ + dθ + 2π) = wrap(θ + dθ)` whenever `θ + dθ ≠ -π`. -/
theorem C5_wrappedAngleAdd_range_and_period (θ dθ : ℝ) :
    (-π ≤ SphericalCamera.wrappedAngleAdd θ dθ ∧
      SphericalCamera.wrappedAngleAdd θ dθ ≤ π) ∧
    (θ + dθ ≠ -π →
      SphericalCamera.wrappedAngleAdd θ (dθ + 2 * π) =
        SphericalCamera.wrappedAngleAdd θ dθ) := by
  constructor
  · exact ⟨wrapUp_ge _, wrapUp_le _ (wrapDown_le _)⟩
  · intro hne
    unfold SphericalCamera.wrappedAngleAdd
    rw [show θ + (dθ + 2 * π) = (θ + dθ) + 2 * π by ring]
    set x := θ + dθ with hxdef
    have hπ := Real.pi_pos
    rcases lt_or_gt_of_ne hne with hlt | hgt
    · have h1 : SphericalCamera.wrapDown (x + 2 * π) = x + 2 * π :=
        wrapDown_of_le (by linarith)
      have h2 : SphericalCamera.wrapDown x = x := wrapDown_of_le (by linarith)
      rw [h1, h2, wrapUp_step hlt]
    · have h1 : SphericalCamera.wrapDown (x + 2 * π) = SphericalCamera.wrapDown x := by
        rw [wrapDown_step (by linarith : π < x + 2 * π)]
        rw [show x + 2 * π - 2 * π = x by ring]
      rw [h1]

/-- Witness for C5: at `θ = 0`, `dθ = 0` the sum avoids `-π`, the result is
in range and the `2π` shift does not change it. -/
theorem C5_witness :
    ((0 : ℝ) + 0 ≠ -π) ∧
    (-π ≤ SphericalCamera.wrappedAngleAdd 0 0 ∧
      SphericalCamera.wrappedAngleAdd 0 0 ≤ π) ∧
    SphericalCamera.wrappedAngleAdd 0 (0 + 2 * π) =
      SphericalCamera.wrappedAngleAdd 0 0 := by
  have hne : (0 : ℝ) + 0 ≠ -π := by
    have := Real.pi_pos
    intro h
    linarith
  exact ⟨hne, (C5_wrappedAngleAdd_range_and_period 0 0).1,
    (C5_wrappedAngleAdd_range_and_period 0 0).2 hne⟩

/-- C5 (counterexample): at the sum `-π` the wrapped result is exactly `-π`,
which is outside the claimed interval `(-π, π]`, and the claimed periodicity
fails there: `wrap(-π + 2π) = π ≠ -π = wrap(-π)`. -/
theorem C5_cex :
    SphericalCamera.wrappedAngleAdd (-π) 0 = -π ∧
    ¬(-π < SphericalCamera.wrappedAngleAdd (-π) 0) ∧
    SphericalCamera.wrappedAngleAdd (-π) (2 * π) = π ∧
    SphericalCamera.wrappedAngleAdd (-π) (2 * π) ≠
      SphericalCamera.wrappedAngleAdd (-π) 0 := by
  have hπ := Real.pi_pos
  have h1 : SphericalCamera.wrappedAngleAdd (-π) 0 = -π := by
    unfold SphericalCamera.wrappedAngleAdd
    rw [show -π + 0 = -π by ring, wrapDown_of_le (by linarith), wrapUp_of_ge (le_refl _)]
  have h2 : SphericalCamera.wrappedAngleAdd (-π) (2 * π) = π := by
    unfold SphericalCamera.wrappedAngleAdd
    rw [show -π + 2 * π = π by ring, wrapDown_of_le (le_refl _), wrapUp_of_ge (by linarith)]
  refine ⟨h1, by rw [h1]; exact lt_irrefl _, h2, ?_⟩
  rw [h1, h2]
  intro h
  linarith

/-! ## Claim C6 — spherical/Cartesian round trip -/

/-- The JS `Math.atan2` model recovers the angle of a scaled direction
vector: for `a > 0` and `θ ∈ (-π, π]`, `atan2(a·sinθ, a·cosθ) = θ`. -/
theorem atan2_mul_sin_cos {a θ : ℝ} (ha : 0 < a) (h1 : -π < θ) (h2 : θ ≤ π) :
    atan2 (a * Real.sin θ) (a * Real.cos θ) = θ := by
  have hπ := Real.pi_pos
  unfold atan2
  rcases lt_trichotomy (Real.cos θ) 0 with hc | hc | hc
  · have hx : a * Real.cos θ < 0 := mul_neg_of_pos_of_neg ha hc
    rw [if_neg (by linarith), if_pos hx]
    have hdiv : a * Real.sin θ / (a * Real.cos θ) = Real.tan θ := by
      rw [mul_div_mul_left _ _ (ne_of_gt ha), Real.tan_eq_sin_div_cos]
    by_cases hs : 0 ≤ Real.sin θ
    · rw [if_pos (mul_nonneg ha.le hs)]
      have hθpos : 0 < θ := by
        by_contra hle
        push_neg at hle
        rcases eq_or_lt_of_le hle with heq | hlt
        · rw [heq, Real.cos_zero] at hc
          linarith
        · have := Real.sin_neg_of_neg_of_neg_pi_lt hlt h1
          linarith
      have hθhalf : π / 2 < θ := by
        by_contra hle
        push_neg at hle
        have := Real.cos_nonneg_of_neg_pi_div_two_le_of_le (by linarith) hle
        linarith
      have htan : Real.arctan (Real.tan θ) = θ - π := by
        rw [← Real.tan_periodic.sub_eq θ]
        exact Real.arctan_tan (by linarith) (by linarith)
      rw [hdiv, htan]
      ring
    · push_neg at hs
      rw [if_neg (not_le.mpr (mul_neg_of_pos_of_neg ha hs))]
      have hθneg : θ < 0 := by
        by_contra hge
        push_neg at hge
        have := Real.sin_nonneg_of_nonneg_of_le_pi hge h2
        linarith
      have hθhalf : θ < -(π / 2) := by
        by_contra hge
        push_neg at hge
        have := Real.cos_nonneg_of_neg_pi_div_two_le_of_le hge (by linarith)
        linarith
      have htan : Real.arctan (Real.tan θ) = θ + π := by
        rw [← Real.tan_periodic θ]
        exact Real.arctan_tan (by linarith) (by linarith)
      rw [hdiv, htan]
      ring
  · have hx0 : a * Real.cos θ = 0 := by rw [hc, mul_zero]
    rw [if_neg (by rw [hx0]; exact lt_irrefl 0), if_neg (by rw [hx0]; exact lt_irrefl 0)]
    obtain ⟨k, hk⟩ := Real.cos_eq_zero_iff.mp hc
    have hge : (-1 : ℤ) ≤ k := by
      by_contra hlt
      push_neg at hlt
      have hk2 : (k : ℝ) ≤ -2 := by exact_mod_cast (by omega : k ≤ -2)
      have hub : θ ≤ (2 * (-2 : ℝ) + 1) * π / 2 := by
        rw [hk]
        have hmul := mul_le_mul_of_nonneg_right
          (by linarith : 2 * (k : ℝ) + 1 ≤ 2 * (-2 : ℝ) + 1) hπ.le
        linarith
      linarith
    have hle : k ≤ 0 := by
      by_contra hlt
      push_neg at hlt
      have hk2 : (1 : ℝ) ≤ (k : ℝ) := by exact_mod_cast hlt
      have hlb : (2 * (1 : ℝ) + 1) * π / 2 ≤ θ := by
        rw [hk]
        have hmul := mul_le_mul_of_nonneg_right
          (by linarith : 2 * (1 : ℝ) + 1 ≤ 2 * (k : ℝ) + 1) hπ.le
        linarith
      linarith
    interval_cases k
    · have hθ : θ = -(π / 2) := by
        rw [hk]
        push_cast
        ring
      rw [hθ, Real.sin_neg, Real.sin_pi_div_two]
      rw [if_neg (by linarith : ¬ (0 : ℝ) < a * -1), if_pos (by linarith : a * -1 < 0)]
    · have hθ : θ = π / 2 := by
        rw [hk]
        push_cast
        ring
      rw [hθ, Real.sin_pi_div_two]
      rw [if_pos (by linarith : (0 : ℝ) < a * 1)]
  · rw [if_pos (mul_pos ha hc)]
    have hb1 : -(π / 2) < θ := by
      by_contra hle
      push_neg at hle
      have hcn : Real.cos (-θ) ≤ 0 :=
        Real.cos_nonpos_of_pi_div_two_le_of_le (by linarith) (by linarith)
      rw [Real.cos_neg] at hcn
      linarith
    have hb2 : θ < π / 2 := by
      by_contra hle
      push_neg at hle
      have hcn : Real.cos θ ≤ 0 :=
        Real.cos_nonpos_of_pi_div_two_le_of_le hle (by linarith)
      linarith
    rw [mul_div_mul_left _ _ (ne_of_gt ha), ← Real.tan_eq_sin_div_cos]
    exact Real.arctan_tan hb1 hb2

/-- C6: for `θ ∈ (-π, π]`, `φ ∈ (-π/2, π/2)` and `r > 0`, converting
spherical to Cartesian and back is the identity — exactly, in the real-number
model — in both the `SphericalCamera` module convention and the
`ArcballCameraSpherical` (MATLAB/Octave) convention. -/
theorem C6_cart2sph_sph2cart_roundtrip (θ φ r : ℝ)
    (hθ1 : -π < θ) (hθ2 : θ ≤ π) (hφ1 : -(π / 2) < φ) (hφ2 : φ < π / 2)
    (hr : 0 < r) :
    SphericalCamera.cart2sph (SphericalCamera.sph2cart θ φ r).x
      (SphericalCamera.sph2cart θ φ r).y (SphericalCamera.sph2cart θ φ r).z =
      (⟨θ, φ, r⟩ : Vec3) ∧
    ArcballCameraSpherical.cart2sph (ArcballCameraSpherical.sph2cart θ φ r).x
      (ArcballCameraSpherical.sph2cart θ φ r).y
      (ArcballCameraSpherical.sph2cart θ φ r).z = (⟨θ, φ, r⟩ : Vec3) := by
  have hπ := Real.pi_pos
  have hcos : 0 < Real.cos φ := Real.cos_pos_of_mem_Ioo ⟨hφ1, hφ2⟩
  have ha : 0 < r * Real.cos φ := mul_pos hr hcos
  have hφπ1 : -π < φ := by linarith
  have hφπ2 : φ ≤ π := by linarith
  constructor
  · unfold SphericalCamera.cart2sph SphericalCamera.sph2cart
    dsimp only
    simp only [Vec3.mk.injEq]
    refine ⟨atan2_mul_sin_cos ha hθ1 hθ2, ?_, ?_⟩
    · rw [show r * Real.cos φ * Real.sin θ * (r * Real.cos φ * Real.sin θ) +
          r * Real.cos φ * Real.cos θ * (r * Real.cos φ * Real.cos θ) =
          (r * Real.cos φ) ^ 2 * (Real.sin θ ^ 2 + Real.cos θ ^ 2) by ring,
        Real.sin_sq_add_cos_sq, mul_one, Real.sqrt_sq ha.le]
      exact atan2_mul_sin_cos hr hφπ1 hφπ2
    · rw [show r * Real.cos φ * Real.sin θ * (r * Real.cos φ * Real.sin θ) +
          r * Real.sin φ * (r * Real.sin φ) +
          r * Real.cos φ * Real.cos θ * (r * Real.cos φ * Real.cos θ) =
          r ^ 2 * ((Real.sin θ ^ 2 + Real.cos θ ^ 2) * Real.cos φ ^ 2 +
            Real.sin φ ^ 2) by ring,
        Real.sin_sq_add_cos_sq, one_mul, Real.cos_sq_add_sin_sq, mul_one,
        Real.sqrt_sq hr.le]
  · unfold ArcballCameraSpherical.cart2sph ArcballCameraSpherical.sph2cart
    dsimp only
    simp only [Vec3.mk.injEq]
    refine ⟨atan2_mul_sin_cos ha hθ1 hθ2, ?_, ?_⟩
    · rw [show r * Real.cos φ * Real.cos θ * (r * Real.cos φ * Real.cos θ) +
          r * Real.cos φ * Real.sin θ * (r * Real.cos φ * Real.sin θ) =
          (r * Real.cos φ) ^ 2 * (Real.sin θ ^ 2 + Real.cos θ ^ 2) by ring,
        Real.sin_sq_add_cos_sq, mul_one, Real.sqrt_sq ha.le]
      exact atan2_mul_sin_cos hr hφπ1 hφπ2
    · rw [show r * Real.cos φ * Real.cos θ * (r * Real.cos φ * Real.cos θ) +
          r * Real.cos φ * Real.sin θ * (r * Real.cos φ * Real.sin θ) +
          r * Real.sin φ * (r * Real.sin φ) =
          r ^ 2 * ((Real.sin θ ^ 2 + Real.cos θ ^ 2) * Real.cos φ ^ 2 +
            Real.sin φ ^ 2) by ring,
        Real.sin_sq_add_cos_sq, one_mul, Real.cos_sq_add_sin_sq, mul_one,
        Real.sqrt_sq hr.le]

/-- Witness for C6: `θ = 0`, `φ = 0`, `r = 1` satisfies the bounds and the
round trip returns `(0, 0, 1)`. -/
theorem C6_witness :
    (-π < (0 : ℝ) ∧ (0 : ℝ) ≤ π ∧ -(π / 2) < (0 : ℝ) ∧ (0 : ℝ) < π / 2 ∧
      (0 : ℝ) < 1) ∧
    SphericalCamera.cart2sph (SphericalCamera.sph2cart 0 0 1).x
      (SphericalCamera.sph2cart 0 0 1).y (SphericalCamera.sph2cart 0 0 1).z =
      (⟨0, 0, 1⟩ : Vec3) ∧
    ArcballCameraSpherical.cart2sph (ArcballCameraSpherical.sph2cart 0 0 1).x
      (ArcballCameraSpherical.sph2cart 0 0 1).y
      (ArcballCameraSpherical.sph2cart 0 0 1).z = (⟨0, 0, 1⟩ : Vec3) := by
  have hπ := Real.pi_pos
  have hb1 : -π < (0 : ℝ) := by linarith
  have hb2 : (0 : ℝ) ≤ π := by linarith
  have hb3 : -(π / 2) < (0 : ℝ) := by linarith
  have hb4 : (0 : ℝ) < π / 2 := by linarith
  have hb5 : (0 : ℝ) < 1 := by norm_num
  obtain ⟨hfst, hsnd⟩ := C6_cart2sph_sph2cart_roundtrip 0 0 1 hb1 hb2 hb3 hb4 hb5
  exact ⟨⟨hb1, hb2, hb3, hb4, hb5⟩, hfst, hsnd⟩
